import Mathlib

/-!
Verification of the `get-details` package-information widget.

The development shallowly embeds the JavaScript sources of the repository:
`src/es.js` (the exported ES module; definitions suffixed `_es` or unsuffixed)
and `src/unnamed/part_000` (the IIFE variant; definitions suffixed `_iife`).
Strings are modelled as `List Char`; JavaScript `undefined` is `Option.none`;
code that can throw returns `Except`.  The DOM and the network are the external
collaborators the spec names: they appear as an explicit `Env` of typed fetch
endpoints plus date-formatting capabilities, and as a list of `Elem` records
carrying the selector tokens they match.
-/

deriving instance DecidableEq for Except

/-- JavaScript whitespace class `\s` (the ASCII part, which is all the sources
ever produce: space, tab, newline, carriage return, vertical tab, form feed). -/
def jsWs (c : Char) : Bool :=
  c = ' ' || c = '\t' || c = '\n' || c = '\r' || c = '\x0b' || c = '\x0c'

/-- JavaScript `x || d` for a possibly-undefined string `x`:
`undefined` and `""` are falsy and give `d`. -/
def jsOrS (x : Option (List Char)) (d : List Char) : List Char :=
  match x with
  | none => d
  | some s => if s = [] then d else s

/-- JavaScript `String.prototype.split(sep)` for a one-character separator:
`"".split(sep) = [""]`, and separators delimit (possibly empty) fields. -/
def jsSplit (sep : Char) : List Char → List (List Char)
  | [] => [[]]
  | c :: cs =>
    let r := jsSplit sep cs
    if c = sep then [] :: r
    else
      match r with
      | [] => [[c]]
      | h :: t => (c :: h) :: t

/-- Drop leading JS whitespace (the left half of `String.prototype.trim`). -/
def ltrim (s : List Char) : List Char := s.dropWhile jsWs

/-- Drop trailing JS whitespace (the right half of `String.prototype.trim`). -/
def rtrim (s : List Char) : List Char := ((s.reverse).dropWhile jsWs).reverse

/-- JavaScript `String.prototype.trim`. -/
def trimChars (s : List Char) : List Char := rtrim (ltrim s)

/-- The regex `/{([^}]*)}/` of both parsers: it matches iff the first `{` of
the string is followed (anywhere later) by a `}`, and captures the characters
between that `{` and the first subsequent `}`. -/
def braceCapture (s : List Char) : Option (List Char) :=
  match s.dropWhile (fun c => c ≠ '{') with
  | [] => none
  | _ :: rest => if rest.any (fun c => c = '}') then some (rest.takeWhile (fun c => c ≠ '}')) else none

/-- Everything before the first `{`, i.e. `attrValue.slice(0, attrValue.indexOf('{'))`
in the case where the brace regex matched. -/
def beforeBrace (s : List Char) : List Char := s.takeWhile (fun c => c ≠ '{')

/-- The `RequestDescriptor` produced by the attribute parsers: package name,
target selector, source name, and format template.  `none` models a field that
is JavaScript `undefined`. -/
structure Desc where
  pkg : List Char
  target : Option (List Char)
  source : List Char
  format : Option (List Char)
deriving DecidableEq, Repr

/-- Error message thrown by both parsers on a missing package name. -/
def errPkgMsg : List Char := ("Package name is required in data-get-details attribute").toList

/-- `parse` from `src/es.js` (lines 13-31).  A `{...}` segment, when present,
supplies the format and everything before the first `{` is the comma-separated
`package,target,source` prefix; otherwise the whole string splits on commas
into up to four fields.  Fields are trimmed; an empty package throws;
`source || 'npm'` defaults the source. -/
def parse_es (attrValue : List Char) : Except (List Char) Desc :=
  match braceCapture attrValue with
  | some cap =>
    let configPart := trimChars (beforeBrace attrValue)
    let format := trimChars cap
    let fields := (jsSplit ',' configPart).map trimChars
    let pkg := (fields.get? 0).getD []
    if pkg = [] then .error errPkgMsg
    else .ok ⟨pkg, fields.get? 1, jsOrS (fields.get? 2) ("npm").toList, some format⟩
  | none =>
    let fields := (jsSplit ',' attrValue).map trimChars
    let pkg := (fields.get? 0).getD []
    if pkg = [] then .error errPkgMsg
    else .ok ⟨pkg, fields.get? 1, jsOrS (fields.get? 2) ("npm").toList, fields.get? 3⟩

/-- `parse` from `src/unnamed/part_000` (lines 11-40).  Differences from the
ES-module parser: a falsy attribute value returns `undefined` (here `.ok none`)
instead of proceeding; in the comma branch the fourth field is discarded
(`format: undefined`); in the brace branch an empty format becomes `undefined`
(`format || undefined`). -/
def parse_iife (attrValue : Option (List Char)) : Except (List Char) (Option Desc) :=
  match attrValue with
  | none => .ok none
  | some a =>
    if a = [] then .ok none
    else
      match braceCapture a with
      | none =>
        let fields := (jsSplit ',' a).map trimChars
        let pkg := (fields.get? 0).getD []
        if pkg = [] then .error errPkgMsg
        else .ok (some ⟨pkg, fields.get? 1, jsOrS (fields.get? 2) ("npm").toList, none⟩)
      | some cap =>
        let configPart := trimChars (beforeBrace a)
        let format := trimChars cap
        let fields := (jsSplit ',' configPart).map trimChars
        let pkg := (fields.get? 0).getD []
        if pkg = [] then .error errPkgMsg
        else .ok (some ⟨pkg, fields.get? 1, jsOrS (fields.get? 2) ("npm").toList,
          if format = [] then none else some format⟩)

example : parse_es ("left-pad").toList =
    .ok ⟨("left-pad").toList, none, ("npm").toList, none⟩ := by decide

example : parse_es ("flask,,pypi,{fmt}").toList =
    .ok ⟨("flask").toList, some [], ("pypi").toList, some ("fmt").toList⟩ := by decide

example : parse_es (" a , b , c , d ").toList =
    .ok ⟨("a").toList, some ("b").toList, ("c").toList, some ("d").toList⟩ := by decide

example : parse_es (",x,npm").toList = .error errPkgMsg := by decide

example : parse_iife (some ("a,b,npm,fmt").toList) =
    .ok (some ⟨("a").toList, some ("b").toList, ("npm").toList, none⟩) := by decide

/-- The canonical `PackageMetadata` record the adapters produce and the
renderer consumes: every field of the JavaScript object, `none` = the field is
absent (`undefined`).  `downloads` is the nested object built by the PyPI
adapter. -/
structure Downloads where
  lastDay : Nat
  lastMonth : Nat
  lastWeek : Nat
deriving DecidableEq, Repr

structure PackageData where
  version : Option (List Char) := none
  name : Option (List Char) := none
  description : Option (List Char) := none
  author : Option (List Char) := none
  authorEmail : Option (List Char) := none
  license : Option (List Char) := none
  homepage : Option (List Char) := none
  repository : Option (List Char) := none
  lastUpdate : Option (List Char) := none
  keywords : Option (List Char) := none
  maintainers : Option (List Char) := none
  dependencies : Option Nat := none
  requiresPython : Option (List Char) := none
  downloads : Option Downloads := none
  stars : Option Nat := none
  forks : Option Nat := none
  watchers : Option Nat := none
  language : Option (List Char) := none
  owner : Option (List Char) := none
  fullName : Option (List Char) := none
  defaultBranch : Option (List Char) := none
  releaseDate : Option (List Char) := none
  releaseAuthor : Option (List Char) := none
  releaseNotes : Option (List Char) := none
  openIssues : Option Nat := none
deriving DecidableEq, Repr

/-- The empty JavaScript object `{}` returned by the npm, PyPI and GitHub
adapters of `src/es.js` on any failure: every field reads back `undefined`. -/
def jsEmptyObj : PackageData := {}

/-- Case-insensitive prefix test: does `key` match the head of `s` the way the
regex `new RegExp(key, 'i')` would at that position (ASCII case folding)? -/
def ciHeadMatch : List Char → List Char → Bool
  | [], _ => true
  | _ :: _, [] => false
  | k :: ks, c :: cs => k.toLower = c.toLower && ciHeadMatch ks cs

/-- Worker for `replaceCI`, structurally recursive on a fuel argument so that
it reduces inside the kernel; the fuel is always at least the length of the
string, and each step consumes at least one character. -/
def replaceCIGo (key val : List Char) : Nat → List Char → List Char
  | _, [] => []
  | 0, s => s
  | fuel + 1, c :: cs =>
    if key ≠ [] ∧ ciHeadMatch key (c :: cs) then
      val ++ replaceCIGo key val fuel (cs.drop (key.length - 1))
    else c :: replaceCIGo key val fuel cs

/-- `result.replace(new RegExp(key, 'gi'), val)` for a literal `key` with no
regex metacharacters (true of every placeholder token): scan left to right,
replace each case-insensitive occurrence, never rescan the replacement. -/
def replaceCI (key val s : List Char) : List Char :=
  replaceCIGo key val s.length s

/-- `.replace(/\s+/g, ' ')`: collapse every run of whitespace to one space.
The flag records whether the previous character was whitespace. -/
def collapseWsGo (prevWs : Bool) : List Char → List Char
  | [] => []
  | c :: cs =>
    if jsWs c then
      if prevWs then collapseWsGo true cs else ' ' :: collapseWsGo true cs
    else c :: collapseWsGo false cs

def collapseWs (s : List Char) : List Char := collapseWsGo false s

/-- `.replace(/\s+,/g, ',')`: delete every whitespace character that is
followed (through further whitespace) by a comma.  Processed right to left;
the flag records whether the suffix begins with `\s*,`. -/
def rmWsBeforeComma (s : List Char) : List Char :=
  (s.foldr (fun c acc =>
      if c = ',' then (c :: acc.1, true)
      else if jsWs c then ((if acc.2 then acc.1 else c :: acc.1), acc.2)
      else (c :: acc.1, false))
    (([] : List Char), false)).1

/-- `.replace(/,+/g, ',')`: collapse every run of commas to one comma. -/
def collapseCommasGo (prevComma : Bool) : List Char → List Char
  | [] => []
  | c :: cs =>
    if c = ',' then
      if prevComma then collapseCommasGo true cs else ',' :: collapseCommasGo true cs
    else c :: collapseCommasGo false cs

def collapseCommas (s : List Char) : List Char := collapseCommasGo false s

/-- `.replace(/^,+|,+$/g, '')`: strip runs of commas at both ends. -/
def stripEdgeCommas (s : List Char) : List Char :=
  (((s.dropWhile (fun c => c = ',')).reverse.dropWhile (fun c => c = ',')).reverse)

/-- `.replace(/\(\s*\)/g, '')`: delete parenthesis pairs whose interior is only
whitespace, scanning left to right without rescanning.  Processed right to
left: the state is (output, does the suffix begin with `\s*)`, output with that
leading `\s*)` span deleted); a match resets the flag because the regex engine
continues after the matched span. -/
def rmEmptyParensStep (c : Char) (acc : List Char × Bool × List Char) :
    List Char × Bool × List Char :=
  if c = ')' then (')' :: acc.1, true, acc.1)
  else if jsWs c then (c :: acc.1, acc.2.1, acc.2.2)
  else if c = '(' then
    (if acc.2.1 then (acc.2.2, false, []) else ('(' :: acc.1, false, []))
  else (c :: acc.1, false, [])

def rmEmptyParens (s : List Char) : List Char :=
  (s.foldr rmEmptyParensStep (([] : List Char), false, ([] : List Char))).1

/-- The six post-processing steps of `getReport`, in source order. -/
def postprocess (s : List Char) : List Char :=
  rmEmptyParens (stripEdgeCommas (trimChars (collapseCommas (rmWsBeforeComma (collapseWs s)))))

/-- Decimal rendering of the numbers the renderer interpolates
(JavaScript `String(n)` for a non-negative integer). -/
def natChars (n : Nat) : List Char := (Nat.repr n).toList

/-- A numeric field under `field || ''`: `undefined` and `0` are falsy and
render empty, any other count renders as its digits. -/
def numOrEmpty (x : Option Nat) : List Char :=
  match x with
  | none => []
  | some n => if n = 0 then [] else natChars n

/-- The placeholder table of `getReport`, in the object-literal order of the
source (which is the substitution order), parameterised by the `%copy` symbol
(`'Â©'` in `src/es.js`, `'©'` in `src/unnamed/part_000`) and by the current
year (`new Date().getFullYear()`). -/
def reportVariables (copySym : List Char) (year : Nat) (data : PackageData) :
    List (List Char × List Char) :=
  [ (("%year").toList, natChars year),
    (("%copy").toList, copySym),
    (("%name").toList, jsOrS data.name []),
    (("%version").toList, jsOrS data.version []),
    (("%description").toList, jsOrS data.description []),
    (("%homepage").toList, jsOrS data.homepage []),
    (("%author").toList, jsOrS data.author []),
    (("%license").toList, jsOrS data.license []),
    (("%last-update").toList, jsOrS data.lastUpdate []),
    (("%stars").toList, numOrEmpty data.stars),
    (("%forks").toList, numOrEmpty data.forks),
    (("%language").toList, jsOrS data.language []),
    (("%repository").toList, jsOrS data.repository []),
    (("%maintainers").toList, jsOrS data.maintainers []),
    (("%downloads").toList, numOrEmpty (data.downloads.map Downloads.lastMonth)),
    (("%release-date").toList, jsOrS data.releaseDate []),
    (("%release-notes").toList, jsOrS data.releaseNotes []),
    (("%owner").toList, jsOrS data.owner []),
    (("%requires").toList, jsOrS data.requiresPython []) ]

/-- `getReport(data, format)` (`src/es.js` lines 211-258 and, with a different
`%copy` glyph, `src/unnamed/part_000` lines 223-270).  `data?` is `none` when
the caller passes `undefined` (as the failed GitLab adapter does), in which
case the very first property access throws a `TypeError`; that is the
`.error` branch.  A falsy format returns `data.version || ''`; otherwise every
placeholder is substituted sequentially, case-insensitively and globally, and
the result goes through the six clean-up steps. -/
def getReportWith (copySym : List Char) (data? : Option PackageData)
    (format : Option (List Char)) (year : Nat) : Except (List Char) (List Char) :=
  match data? with
  | none => .error ("TypeError: Cannot read properties of undefined").toList
  | some data =>
    match format with
    | none => .ok (jsOrS data.version [])
    | some f =>
      if f = [] then .ok (jsOrS data.version [])
      else
        .ok (postprocess ((reportVariables copySym year data).foldl
          (fun acc kv => replaceCI kv.1 kv.2 acc) f))

/-- `getReport` of `src/es.js` (its `%copy` glyph is the two-byte `'Â©'`). -/
def getReport (data? : Option PackageData) (format : Option (List Char)) (year : Nat) :
    Except (List Char) (List Char) :=
  getReportWith ("Â©").toList data? format year

/-- `getReport` of `src/unnamed/part_000` (its `%copy` glyph is `'©'`). -/
def getReport_iife (data? : Option PackageData) (format : Option (List Char)) (year : Nat) :
    Except (List Char) (List Char) :=
  getReportWith ("©").toList data? format year

/-- Metadata with empty owner, requires-runtime and license strings — the
record of the spec's template clean-up example. -/
def emptyOwnReqLic : PackageData :=
  { jsEmptyObj with owner := some [], requiresPython := some [], license := some [] }

/-- Metadata whose release notes contain the later-substituted `%owner` token. -/
def nestedTokenData : PackageData :=
  { jsEmptyObj with releaseNotes := some ("see %owner").toList, owner := some ("alice").toList }

/-- Metadata whose stars count is the genuine number zero. -/
def zeroStarsData : PackageData := { jsEmptyObj with stars := some 0 }

/-- Metadata with a nonzero stars count. -/
def someStarsData : PackageData := { jsEmptyObj with stars := some 42 }

example : postprocess (", , ()").toList = (" ").toList := by decide

example : getReport (some emptyOwnReqLic)
    (some ("%owner, %requires, (%license)").toList) 2025 = .ok (" ").toList := by decide

example : getReport (some nestedTokenData)
    (some ("%release-notes").toList) 2025 = .ok ("see alice").toList := by decide

example : getReport (some zeroStarsData) (some ("%stars").toList) 2025 = .ok [] := by decide

example : getReport (some someStarsData) (some ("%StArS%stars").toList) 2025 =
    .ok ("4242").toList := by decide

example : getReport none none 2025 =
    .error ("TypeError: Cannot read properties of undefined").toList := by decide

example : getReport (some jsEmptyObj) none 2025 = .ok [] := by decide

/-- Outcome of one `fetch` of a JSON endpoint: the promise rejects
(`netfail`), or a response arrives with a status flag `ok` and a body that
either decodes to `α` or fails to decode (`body = none`). -/
inductive FetchOutcome (α : Type) where
  | netfail
  | resp (ok : Bool) (body : Option α)

/-- `data.author` in the npm document: a string or an object with an optional
`name` (`typeof data.author === 'object'`). -/
inductive NpmAuthor where
  | str (s : List Char)
  | obj (name : Option (List Char))

/-- The fields of the npm `/latest` JSON document that `fetchNpmData` reads. -/
structure NpmRaw where
  version : Option (List Char)
  name : Option (List Char)
  description : Option (List Char)
  author : Option NpmAuthor
  license : Option (List Char)
  homepage : Option (List Char)
  repositoryUrl : Option (List Char)
  timeModified : Option (List Char)
  keywords : Option (List (List Char))
  maintainerNames : Option (List (List Char))
  dependencyKeys : Option (List (List Char))

/-- The fields of `data.info` in the PyPI JSON document that the adapter reads. -/
structure PyPIInfo where
  version : Option (List Char)
  name : Option (List Char)
  summary : Option (List Char)
  author : Option (List Char)
  authorEmail : Option (List Char)
  license : Option (List Char)
  homePage : Option (List Char)
  projectUrl : Option (List Char)
  projectUrlsSource : Option (List Char)
  lastSerial : Option Nat
  keywords : Option (List Char)
  maintainer : Option (List Char)
  requiresPython : Option (List Char)
  downloadsLastMonth : Option Nat
  downloadsLastWeek : Option Nat

/-- The PyPI JSON document: the `info` sub-document (absent means every
`info.x` access throws) and `data.urls?.[0]?.downloads`. -/
structure PyPIRaw where
  info : Option PyPIInfo
  urls0Downloads : Option Nat

/-- The fields of the GitHub latest-release document that the adapters read.
`authorLogin`: outer `none` = `author` absent (so `.login` throws in the
part_000 variant), inner option = the `login` field itself. -/
structure GHRelease where
  tagName : Option (List Char)
  name : Option (List Char)
  body : Option (List Char)
  publishedAt : Option (List Char)
  authorLogin : Option (Option (List Char))

/-- The fields of the GitHub repository document read by the part_000 variant
(`ownerLogin` has the same two-level shape as `GHRelease.authorLogin`). -/
structure GHRepo where
  name : Option (List Char)
  fullName : Option (List Char)
  description : Option (List Char)
  ownerLogin : Option (Option (List Char))
  stargazers : Option Nat
  watchers : Option Nat
  forks : Option Nat
  homepage : Option (List Char)
  licenseName : Option (List Char)
  updatedAt : Option (List Char)
  language : Option (List Char)
  openIssues : Option Nat
  defaultBranch : Option (List Char)

/-- One element of the GitLab releases list.  `authorName` is two-level like
`GHRelease.authorLogin`, but GitLab access uses optional chaining
(`latestRelease?.author?.name`), which never throws. -/
structure GLRelease where
  tagName : Option (List Char)
  releasedAt : Option (List Char)
  authorName : Option (Option (List Char))
  description : Option (List Char)

/-- The GitLab project document.  `namespaceName`: outer `none` = `namespace`
absent, making `repoData.namespace.name` throw. -/
structure GLProject where
  name : Option (List Char)
  pathWithNamespace : Option (List Char)
  description : Option (List Char)
  namespaceName : Option (Option (List Char))
  starCount : Option Nat
  forksCount : Option Nat
  webUrl : Option (List Char)
  licenseName : Option (List Char)
  lastActivityAt : Option (List Char)
  predominantLanguage : Option (List Char)
  openIssuesCount : Option Nat
  defaultBranch : Option (List Char)

/-- The external collaborators of the core: one typed fetch endpoint per
registry URL family, the `Date`/`toLocaleDateString` capability (from a date
string or from a millisecond count), `encodeURIComponent`, and the current
year used by the `%year` placeholder. -/
structure Env where
  npmLatest : List Char → FetchOutcome NpmRaw
  pypiJson : List Char → FetchOutcome PyPIRaw
  ghRelease : List Char → FetchOutcome GHRelease
  ghRepo : List Char → FetchOutcome GHRepo
  glReleases : List Char → FetchOutcome (List GLRelease)
  glProject : List Char → FetchOutcome GLProject
  dateFromStr : Option (List Char) → List Char
  dateFromNum : Nat → List Char
  encodeURI : List Char → List Char
  year : Nat

def npmUrl (pkg : List Char) : List Char :=
  ("https://registry.npmjs.org/").toList ++ pkg ++ ("/latest").toList

def pypiUrl (pkg : List Char) : List Char :=
  ("https://pypi.org/pypi/").toList ++ pkg ++ ("/json").toList

def ghReleaseUrl (repoPath : List Char) : List Char :=
  ("https://api.github.com/repos/").toList ++ repoPath ++ ("/releases/latest").toList

def ghRepoUrl (repoPath : List Char) : List Char :=
  ("https://api.github.com/repos/").toList ++ repoPath

def glReleasesUrl (enc : List Char) : List Char :=
  ("https://gitlab.com/api/v4/projects/").toList ++ enc ++ ("/releases/").toList

def glProjectUrl (enc : List Char) : List Char :=
  ("https://gitlab.com/api/v4/projects/").toList ++ enc

/-- `Array.prototype.join(', ')`. -/
def joinCommaSp : List (List Char) → List Char
  | [] => []
  | [x] => x
  | x :: xs => x ++ (", ").toList ++ joinCommaSp xs

/-- Strip a leading `'v'`: `tag.startsWith('v') ? tag.slice(1) : tag`. -/
def stripV (tag : List Char) : List Char :=
  match tag with
  | 'v' :: rest => rest
  | _ => tag

/-- `x || 0` for a possibly-undefined count. -/
def jsOrN (x : Option Nat) : Nat := x.getD 0

/-- The success mapping of `fetchNpmData` (identical in `src/es.js` lines
46-58 and `src/unnamed/part_000` lines 56-68). -/
def mapNpm (env : Env) (d : NpmRaw) : PackageData :=
  { version := d.version,
    name := d.name,
    description := some (jsOrS d.description []),
    author :=
      match d.author with
      | some (.obj nm) => nm
      | some (.str s) => some s
      | none => some [],
    license := some (jsOrS d.license []),
    homepage := some (jsOrS d.homepage []),
    repository := some (jsOrS d.repositoryUrl []),
    lastUpdate := some (env.dateFromStr (some (jsOrS d.timeModified []))),
    keywords := some (match d.keywords with | some l => joinCommaSp l | none => []),
    maintainers := some (match d.maintainerNames with | some l => joinCommaSp l | none => []),
    dependencies := some ((d.dependencyKeys.getD []).length) }

/-- The success mapping of `fetchPyPIData` (`src/es.js` lines 80-98). -/
def mapPyPI (env : Env) (d : PyPIRaw) (i : PyPIInfo) : PackageData :=
  { version := i.version,
    name := i.name,
    description := some (jsOrS i.summary []),
    author := some (jsOrS i.author []),
    authorEmail := some (jsOrS i.authorEmail []),
    license := some (jsOrS i.license []),
    homepage := some (jsOrS i.homePage (jsOrS i.projectUrl [])),
    repository := some (jsOrS i.projectUrlsSource []),
    lastUpdate := some
      (match i.lastSerial with
       | some n => if n ≠ 0 then env.dateFromNum (n * 1000) else env.dateFromStr (some [])
       | none => env.dateFromStr (some [])),
    keywords := some (jsOrS i.keywords []),
    maintainers := some (jsOrS i.maintainer []),
    requiresPython := some (jsOrS i.requiresPython []),
    downloads := some
      ⟨jsOrN d.urls0Downloads, jsOrN i.downloadsLastMonth, jsOrN i.downloadsLastWeek⟩ }

/-- `fetchNpmData` of `src/es.js` (lines 39-63): every failure — rejected
fetch, non-ok status, failed decode — is caught and yields `{}`.  The second
component counts `fetch` invocations. -/
def fetchNpmData_es (env : Env) (pkgName : List Char) : Option PackageData × Nat :=
  match env.npmLatest (npmUrl pkgName) with
  | .netfail => (some jsEmptyObj, 1)
  | .resp ok body =>
    if !ok then (some jsEmptyObj, 1)
    else
      match body with
      | none => (some jsEmptyObj, 1)
      | some d => (some (mapNpm env d), 1)

/-- `fetchPyPIData` of `src/es.js` (lines 71-103).  An absent `info`
sub-document makes `info.version` throw inside the `try`, so it also yields
`{}`. -/
def fetchPyPIData_es (env : Env) (pkgName : List Char) : Option PackageData × Nat :=
  match env.pypiJson (pypiUrl pkgName) with
  | .netfail => (some jsEmptyObj, 1)
  | .resp ok body =>
    if !ok then (some jsEmptyObj, 1)
    else
      match body with
      | none => (some jsEmptyObj, 1)
      | some d =>
        match d.info with
        | none => (some jsEmptyObj, 1)
        | some i => (some (mapPyPI env d i), 1)

/-- `fetchGitHubData` of `src/es.js` (lines 111-129): a single lookup of
the latest release.  An absent `tag_name` makes `.startsWith` throw, caught
into `{}`. -/
def fetchGitHubData_es (env : Env) (repoPath : List Char) : Option PackageData × Nat :=
  match env.ghRelease (ghReleaseUrl repoPath) with
  | .netfail => (some jsEmptyObj, 1)
  | .resp ok body =>
    if !ok then (some jsEmptyObj, 1)
    else
      match body with
      | none => (some jsEmptyObj, 1)
      | some d =>
        match d.tagName with
        | none => (some jsEmptyObj, 1)
        | some tag =>
          (some { version := some (stripV tag),
                  name := some (jsOrS d.name []),
                  releaseNotes := some (jsOrS d.body []) }, 1)

/-- The success mapping of `fetchGitLabData` (`src/es.js` lines 158-175),
given the already-checked `namespace.name`. -/
def mapGitLab (env : Env) (releases : List GLRelease) (p : GLProject)
    (nsName : Option (List Char)) : PackageData :=
  let latest := releases.head?
  let tag? := latest.bind GLRelease.tagName
  { version := some (match tag? with | some t => stripV t | none => []),
    name := p.name,
    fullName := p.pathWithNamespace,
    description := some (jsOrS p.description []),
    owner := nsName,
    stars := p.starCount,
    forks := p.forksCount,
    homepage := some (jsOrS p.webUrl []),
    license := some (jsOrS p.licenseName []),
    lastUpdate := some (env.dateFromStr p.lastActivityAt),
    language := some (jsOrS p.predominantLanguage []),
    releaseDate := some
      (match latest with | some r => env.dateFromStr r.releasedAt | none => []),
    releaseAuthor := some (jsOrS ((latest.bind GLRelease.authorName).join) []),
    releaseNotes := some (jsOrS (latest.bind GLRelease.description) []),
    openIssues := p.openIssuesCount,
    defaultBranch := p.defaultBranch }

/-- `fetchGitLabData` of `src/es.js` (lines 138-179): two lookups (releases
list, then project details) on the URL-encoded path.  Its `catch` block is
`return;` — every failure yields `undefined` (`none`), not `{}`.  An absent
`namespace` makes `repoData.namespace.name` throw, also caught into
`undefined`. -/
def fetchGitLabData_es (env : Env) (repoPath : List Char) : Option PackageData × Nat :=
  let enc := env.encodeURI repoPath
  match env.glReleases (glReleasesUrl enc) with
  | .netfail => (none, 1)
  | .resp ok1 body1 =>
    if !ok1 then (none, 1)
    else
      match body1 with
      | none => (none, 1)
      | some releases =>
        match env.glProject (glProjectUrl enc) with
        | .netfail => (none, 2)
        | .resp ok2 body2 =>
          if !ok2 then (none, 2)
          else
            match body2 with
            | none => (none, 2)
            | some p =>
              match p.namespaceName with
              | none => (none, 2)
              | some nsName => (some (mapGitLab env releases p nsName), 2)

def unsupportedMsg (source : List Char) : List Char :=
  ("Unsupported source: ").toList ++ source

/-- `getData` of `src/es.js` (lines 189-202): case-insensitive dispatch over
npm, pypi, github, gitlab; any other name throws `Unsupported source` having
made no fetch (invocation count 0). -/
def getData_es (env : Env) (source pkg : List Char) :
    Except (List Char) (Option PackageData) × Nat :=
  let l := source.map Char.toLower
  if l = ("npm").toList then
    let r := fetchNpmData_es env pkg; (.ok r.1, r.2)
  else if l = ("pypi").toList then
    let r := fetchPyPIData_es env pkg; (.ok r.1, r.2)
  else if l = ("github").toList then
    let r := fetchGitHubData_es env pkg; (.ok r.1, r.2)
  else if l = ("gitlab").toList then
    let r := fetchGitLabData_es env pkg; (.ok r.1, r.2)
  else (.error (unsupportedMsg source), 0)

/-- `fetchNpmData` of `src/unnamed/part_000` (lines 49-72): same lookup and
success mapping as the ES module, but its `catch` is `return;`, so every
failure yields `undefined` (`none`) instead of `{}`. -/
def fetchNpmData_iife (env : Env) (pkgName : List Char) : Option PackageData × Nat :=
  match env.npmLatest (npmUrl pkgName) with
  | .netfail => (none, 1)
  | .resp ok body =>
    if !ok then (none, 1)
    else
      match body with
      | none => (none, 1)
      | some d => (some (mapNpm env d), 1)

/-- `fetchPyPIData` of `src/unnamed/part_000` (lines 81-112): failures yield
`undefined`. -/
def fetchPyPIData_iife (env : Env) (pkgName : List Char) : Option PackageData × Nat :=
  match env.pypiJson (pypiUrl pkgName) with
  | .netfail => (none, 1)
  | .resp ok body =>
    if !ok then (none, 1)
    else
      match body with
      | none => (none, 1)
      | some d =>
        match d.info with
        | none => (none, 1)
        | some i => (some (mapPyPI env d i), 1)

/-- The success mapping of the part_000 GitHub adapter (lines 135-153), given
the release, the repository document, and the three mandatory accesses that
would otherwise have thrown (`tag_name`, `owner.login`, `author.login`). -/
def mapGitHub_iife (env : Env) (rel : GHRelease) (repo : GHRepo) (tag : List Char)
    (ownerLogin authorLogin : Option (List Char)) : PackageData :=
  { version := some (stripV tag),
    name := repo.name,
    fullName := repo.fullName,
    description := some (jsOrS repo.description []),
    owner := ownerLogin,
    stars := repo.stargazers,
    watchers := repo.watchers,
    forks := repo.forks,
    homepage := some (jsOrS repo.homepage []),
    license := some (jsOrS repo.licenseName []),
    lastUpdate := some (env.dateFromStr repo.updatedAt),
    language := some (jsOrS repo.language []),
    releaseDate := some (env.dateFromStr rel.publishedAt),
    releaseAuthor := authorLogin,
    releaseNotes := some (jsOrS rel.body []),
    openIssues := repo.openIssues,
    defaultBranch := repo.defaultBranch }

/-- `fetchGitHubData` of `src/unnamed/part_000` (lines 121-157): two lookups
(latest release, then repository details).  Any failure — including the
`TypeError`s from `tag_name.startsWith`, `owner.login` or `author.login` on
absent objects — is caught into `undefined`. -/
def fetchGitHubData_iife (env : Env) (repoPath : List Char) : Option PackageData × Nat :=
  match env.ghRelease (ghReleaseUrl repoPath) with
  | .netfail => (none, 1)
  | .resp ok1 body1 =>
    if !ok1 then (none, 1)
    else
      match body1 with
      | none => (none, 1)
      | some rel =>
        match env.ghRepo (ghRepoUrl repoPath) with
        | .netfail => (none, 2)
        | .resp ok2 body2 =>
          if !ok2 then (none, 2)
          else
            match body2 with
            | none => (none, 2)
            | some repo =>
              match rel.tagName, repo.ownerLogin, rel.authorLogin with
              | some tag, some ol, some al =>
                (some (mapGitHub_iife env rel repo tag ol al), 2)
              | _, _, _ => (none, 2)

/-- `getData` of `src/unnamed/part_000` (lines 167-178): npm, pypi and github
only — `gitlab` is not in this variant's registry. -/
def getData_iife (env : Env) (source pkg : List Char) :
    Except (List Char) (Option PackageData) × Nat :=
  let l := source.map Char.toLower
  if l = ("npm").toList then
    let r := fetchNpmData_iife env pkg; (.ok r.1, r.2)
  else if l = ("pypi").toList then
    let r := fetchPyPIData_iife env pkg; (.ok r.1, r.2)
  else if l = ("github").toList then
    let r := fetchGitHubData_iife env pkg; (.ok r.1, r.2)
  else (.error (unsupportedMsg source), 0)

/-- A markup element as the core sees it: its tag name, its
`data-get-details` attribute (`none` = attribute absent), its content, the
`dataSetDetails` expando used as the ProcessingMark, and the abstraction of
the DOM collaborator's selector matching — the set of selector strings under
which `querySelectorAll` returns this element. -/
structure Elem where
  tagName : List Char
  attr : Option (List Char)
  innerHTML : List Char
  dataSetDetails : Bool
  selTokens : List (List Char)
deriving DecidableEq, Repr

/-- The default target selector of both variants. -/
def defaultSelector : List Char := ("#package_version, .current-version").toList

/-- Does `querySelectorAll sel` return this element? -/
def elemMatches (sel : List Char) (e : Elem) : Bool := sel ∈ e.selTokens

/-- The body of the `forEach` over resolved targets (identical in
`src/es.js` lines 293-300 and `src/unnamed/part_000` lines 203-210): skip an
element already carrying the mark; otherwise write the report and set the
mark.  The mark is never cleared. -/
def writeStep (report : List Char) (e : Elem) : Elem :=
  if e.dataSetDetails then e
  else { e with innerHTML := report, dataSetDetails := true }

/-- The selector the ES module resolves targets with: the explicit target if
it is a truthy string, else the default pair. -/
def selectorOf (target : Option (List Char)) : List Char :=
  match target with
  | some t => if t = [] then defaultSelector else t
  | none => defaultSelector

/-- The per-element update the `forEach` over resolved targets performs:
elements returned by the selector query receive `writeStep`, all others are
untouched. -/
def touchIf (sel report : List Char) (e : Elem) : Elem :=
  if elemMatches sel e then writeStep report e else e

/-- `action` of `src/es.js` (lines 267-304), for the attribute path (no
direct-parameter override, `params.str` unset).  The element itself is used
only for its attribute: targets always come from `querySelectorAll` (the
explicit selector, or the default pair).  A `null` attribute makes
`attrValue.match` throw; a parse failure propagates (the promise rejects);
an empty target list returns with no write and no fetch; fetch or render
errors are caught, leaving the document unchanged. -/
def action_es (env : Env) (doc : List Elem) (attr : Option (List Char)) :
    Except (List Char) (List Elem) :=
  match attr with
  | none => .error ("TypeError: attrValue is null").toList
  | some a =>
    match parse_es a with
    | .error e => .error e
    | .ok d =>
      let sel := selectorOf d.target
      if doc.any (elemMatches sel) then
        match (getData_es env d.source d.pkg).1 with
        | .error _ => .ok doc
        | .ok data =>
          match getReport data d.format env.year with
          | .error _ => .ok doc
          | .ok report => .ok (doc.map (touchIf sel report))
      else .ok doc

/-- `action` of `src/unnamed/part_000` (lines 184-214).  Differences from the
ES module: a falsy attribute makes `parse` return `undefined` and the
destructuring of its result throw; if the element is not a `<script>` and no
truthy target was given, the element itself is the (only) target; an empty
target list throws `No target elements found` (outside the `try`). -/
def action_iife (env : Env) (doc : List Elem) (i : Nat) : Except (List Char) (List Elem) :=
  match doc.get? i with
  | none => .error ("TypeError: el is undefined").toList
  | some el =>
    match parse_iife el.attr with
    | .error e => .error e
    | .ok none => .error ("TypeError: cannot destructure undefined").toList
    | .ok (some d) =>
      let selfTarget : Bool :=
        el.tagName ≠ ("SCRIPT").toList &&
          (match d.target with | none => true | some t => t = [])
      let hit : Nat → Elem → Bool :=
        if selfTarget then fun j _ => j = i
        else fun _ e => elemMatches (selectorOf d.target) e
      if (doc.enum.any fun p => hit p.1 p.2) then
        match (getData_iife env d.source d.pkg).1 with
        | .error _ => .ok doc
        | .ok data =>
          match getReport_iife data d.format env.year with
          | .error _ => .ok doc
          | .ok report =>
            .ok (doc.enum.map fun p => if hit p.1 p.2 then writeStep report p.2 else p.2)
      else .error ("No target elements found").toList

/-- npm `/latest` document carrying only `version: "1.3.0"` (scenario A of
the spec). -/
def npmRaw130 : NpmRaw :=
  ⟨some ("1.3.0").toList, none, none, none, none, none, none, none, none, none, none⟩

/-- Test environment: the npm endpoint answers with `npmRaw130`, everything
else fails at the network level. -/
def envNpm130 : Env where
  npmLatest := fun _ => .resp true (some npmRaw130)
  pypiJson := fun _ => .netfail
  ghRelease := fun _ => .netfail
  ghRepo := fun _ => .netfail
  glReleases := fun _ => .netfail
  glProject := fun _ => .netfail
  dateFromStr := fun _ => ("1/1/2025").toList
  dateFromNum := fun _ => ("1/1/2025").toList
  encodeURI := fun s => s
  year := 2025

/-- Test environment in which every fetch rejects (network failure). -/
def envAllFail : Env where
  npmLatest := fun _ => .netfail
  pypiJson := fun _ => .netfail
  ghRelease := fun _ => .netfail
  ghRepo := fun _ => .netfail
  glReleases := fun _ => .netfail
  glProject := fun _ => .netfail
  dateFromStr := fun _ => ("1/1/2025").toList
  dateFromNum := fun _ => ("1/1/2025").toList
  encodeURI := fun s => s
  year := 2025

/-- A non-script element carrying the attribute `"left-pad"`, matched by no
selector. -/
def elSelf : Elem := ⟨("DIV").toList, some ("left-pad").toList, [], false, []⟩

/-- An element of the default target set (`#package_version` or
`.current-version`). -/
def elDefaultTgt : Elem := ⟨("SPAN").toList, none, [], false, [defaultSelector]⟩

/-- Scenario A page: the attributed element plus one default-selector element. -/
def doc7 : List Elem := [elSelf, elDefaultTgt]

example : action_es envNpm130 doc7 (some ("left-pad").toList) =
    .ok [elSelf, { elDefaultTgt with innerHTML := ("1.3.0").toList, dataSetDetails := true }] := by
  decide

example : action_iife envNpm130 doc7 0 =
    .ok [{ elSelf with innerHTML := ("1.3.0").toList, dataSetDetails := true }, elDefaultTgt] := by
  decide

/-- Test environment in which the GitLab releases endpoint answers with a
non-success status. -/
def envGlBadStatus : Env :=
  { envAllFail with glReleases := fun _ => .resp false none }

/-- Claim C1, counterexample: rendering the spec's own example template
`"%owner, %requires, (%license)"` against metadata in which owner,
requiresPython and license are all empty does NOT return the empty string —
it returns a single space, because `.trim()` runs before the leading comma is
stripped, so the space freed by that comma survives. -/
theorem c1_cleanup_counterexample :
    getReport (some emptyOwnReqLic) (some ("%owner, %requires, (%license)").toList) 2025 =
      .ok (" ").toList ∧
    (" ").toList ≠ ([] : List Char) := by
  decide

/-- Claim C1, amended: for the template `"%owner, %requires, (%license)"`
with all three fields empty, the six post-processing steps collapse the
commas and the parenthesis pair away but leave exactly one space (for any
current year): the output is `" "`, not `""`. -/
theorem c1_cleanup_amended :
    getReport (some emptyOwnReqLic) (some ("%owner, %requires, (%license)").toList) 2025 =
      .ok (" ").toList := by
  decide

/-- Claim C2 (code bug): on any lookup failure the npm, PyPI and GitHub
adapters of `src/es.js` return `{}` and rendering it yields an empty report —
but `fetchGitLabData`'s catch block is `return;`, so a failed GitLab lookup
(network failure or non-success status alike) yields `undefined`, and
`getReport(undefined, …)` throws a `TypeError` instead of returning a
string. -/
theorem c2_adapter_failure_code_bug :
    fetchNpmData_es envAllFail ("left-pad").toList = (some jsEmptyObj, 1) ∧
    fetchPyPIData_es envAllFail ("flask").toList = (some jsEmptyObj, 1) ∧
    fetchGitHubData_es envAllFail ("octo/repo").toList = (some jsEmptyObj, 1) ∧
    getReport (some jsEmptyObj) none 2025 = .ok [] ∧
    getReport (some jsEmptyObj) (some ("%name %version").toList) 2025 = .ok [] ∧
    fetchGitLabData_es envAllFail ("owner/repo").toList = (none, 1) ∧
    fetchGitLabData_es envGlBadStatus ("owner/repo").toList = (none, 1) ∧
    getReport none none 2025 =
      .error ("TypeError: Cannot read properties of undefined").toList ∧
    getReport none (some ("%version").toList) 2025 =
      .error ("TypeError: Cannot read properties of undefined").toList := by
  decide

/-- Claim C7, counterexample: in `src/es.js`, attribute `"left-pad"` (no
target, no source) on a non-script element with npm returning
`{version:"1.3.0"}` does NOT write into that element — its content stays
empty; the report goes to the default selector set instead. -/
theorem c7_self_target_counterexample :
    action_es envNpm130 doc7 (some ("left-pad").toList) =
      .ok [elSelf,
        { elDefaultTgt with innerHTML := ("1.3.0").toList, dataSetDetails := true }] ∧
    elSelf.innerHTML ≠ ("1.3.0").toList := by
  decide

/-- Claim C7, amended: the element-itself target rule holds in the
`src/unnamed/part_000` variant, where the same scenario writes `"1.3.0"`
into the attributed element itself (and not into the default selector set);
in `src/es.js` the element itself is never the target — with no explicit
target the report is written to the default selector set
`#package_version, .current-version`. -/
theorem c7_self_target_amended :
    action_iife envNpm130 doc7 0 =
      .ok [{ elSelf with innerHTML := ("1.3.0").toList, dataSetDetails := true },
        elDefaultTgt] ∧
    action_es envNpm130 doc7 (some ("left-pad").toList) =
      .ok [elSelf,
        { elDefaultTgt with innerHTML := ("1.3.0").toList, dataSetDetails := true }] := by
  decide

/-- Claim C8: with no template (or an empty one), `getReport` returns exactly
the metadata's `version` field, and the empty string when it is absent —
never the literal string `"undefined"`. -/
theorem c8_bare_version (y : Nat) (d : PackageData) :
    (∀ v, d.version = some v → getReport (some d) none y = .ok v) ∧
    (d.version = none → getReport (some d) none y = .ok []) ∧
    (∀ v, d.version = some v → getReport (some d) (some []) y = .ok v) ∧
    (d.version = none → getReport (some d) (some []) y = .ok []) ∧
    (d.version = none → getReport (some d) none y ≠ .ok ("undefined").toList) := by
  refine ⟨fun v hv => ?_, fun hv => ?_, fun v hv => ?_, fun hv => ?_, fun hv => ?_⟩ <;>
    simp only [getReport, getReportWith, hv, jsOrS] <;>
    first
      | (split <;> simp_all)
      | simp

/-- Claim C8, witness: a record whose version is `"2.3.0"` renders as
`"2.3.0"`. -/
theorem c8_bare_version_witness :
    getReport (some { jsEmptyObj with version := some ("2.3.0").toList }) none 2025 =
      .ok ("2.3.0").toList :=
  (c8_bare_version 2025 _).1 _ rfl

/-- Claim C10: substitution is sequential over the token list, not
simultaneous — a metadata record whose release notes contain the
later-processed token `%owner` has that embedded token substituted too:
rendering `"%release-notes"` against `releaseNotes = "see %owner"`,
`owner = "alice"` yields `"see alice"`. -/
theorem c10_sequential_subst :
    getReport (some nestedTokenData) (some ("%release-notes").toList) 2025 =
      .ok ("see alice").toList := by
  decide

/-- Claim C5, counterexample: in the `src/unnamed/part_000` variant, parsing
the empty attribute string does NOT throw — `if (!attrValue) return;` makes
`parse` return `undefined` without an error. -/
theorem c5_empty_pkg_counterexample :
    parse_iife (some []) = .ok none ∧ parse_iife (some []) ≠ .error errPkgMsg := by
  decide

/-- Claim C5, amended: the ES-module parser throws on every empty-package
string, including `""` and `",x,npm"`, and the part_000 parser throws on
every non-empty attribute string with an empty package (e.g. `",x,npm"`) but
returns `undefined` without throwing on `""`; in neither variant does a
descriptor with an empty (or non-trimmed) package ever come back. -/
theorem c5_empty_pkg_amended :
    parse_es [] = .error errPkgMsg ∧
    parse_es ((",x,npm").toList) = .error errPkgMsg ∧
    parse_iife (some ((",x,npm").toList)) = .error errPkgMsg ∧
    (∀ s d, parse_es s = .ok d → d.pkg ≠ []) ∧
    (∀ s d, parse_iife s = .ok (some d) → d.pkg ≠ []) := by
  refine ⟨by decide, by decide, by decide, ?_, ?_⟩
  · intro s d h
    unfold parse_es at h
    dsimp only at h
    split at h <;> split at h <;>
      first
        | exact Except.noConfusion h
        | (simp only [Except.ok.injEq] at h; subst h; simp_all)
  · intro s d h
    unfold parse_iife at h
    dsimp only at h
    split at h
    · simp_all
    · split at h
      · simp_all
      · split at h <;> split at h <;>
          first
            | exact Except.noConfusion h
            | (simp only [Except.ok.injEq, Option.some.injEq] at h; subst h; simp_all)

/-- Claim C5, amended, witness: a successful parse carries a non-empty
package name. -/
theorem c5_empty_pkg_witness :
    (⟨("x").toList, some ("y").toList, ("npm").toList, none⟩ : Desc).pkg ≠ [] :=
  c5_empty_pkg_amended.2.2.2.1 (("x,y").toList) _ (by decide)

/-- Claim C6: for any source name whose lower-casing is none of npm, pypi,
github, gitlab, `getData` of `src/es.js` fails with the `Unsupported source`
error having made zero fetch invocations, whatever the network would have
answered. -/
theorem c6_unknown_source_no_fetch (env : Env) (source pkg : List Char)
    (h : source.map Char.toLower ∉
      [("npm").toList, ("pypi").toList, ("github").toList, ("gitlab").toList]) :
    getData_es env source pkg = (.error (unsupportedMsg source), 0) := by
  have h1 : source.map Char.toLower ≠ ("npm").toList := fun hc => h (by rw [hc]; simp)
  have h2 : source.map Char.toLower ≠ ("pypi").toList := fun hc => h (by rw [hc]; simp)
  have h3 : source.map Char.toLower ≠ ("github").toList := fun hc => h (by rw [hc]; simp)
  have h4 : source.map Char.toLower ≠ ("gitlab").toList := fun hc => h (by rw [hc]; simp)
  unfold getData_es
  dsimp only
  rw [if_neg h1, if_neg h2, if_neg h3, if_neg h4]

/-- Claim C6, witness: source `"svn"` is rejected with no network call even
in an environment whose endpoints would all answer. -/
theorem c6_unknown_source_witness :
    getData_es envNpm130 ("svn").toList ("pkg").toList =
      (.error (unsupportedMsg (("svn").toList)), 0) :=
  c6_unknown_source_no_fetch envNpm130 (("svn").toList) (("pkg").toList) (by decide)

lemma writeStep_selTokens (r : List Char) (e : Elem) :
    (writeStep r e).selTokens = e.selTokens := by
  unfold writeStep; split <;> rfl

lemma writeStep_of_marked (r : List Char) (e : Elem) (h : e.dataSetDetails = true) :
    writeStep r e = e := by
  unfold writeStep; rw [if_pos h]

lemma writeStep_mark (r : List Char) (e : Elem) :
    (writeStep r e).dataSetDetails = true := by
  unfold writeStep; split
  · assumption
  · rfl

lemma writeStep_writeStep (r : List Char) (e : Elem) :
    writeStep r (writeStep r e) = e ∨ writeStep r (writeStep r e) = writeStep r e := by
  right
  exact writeStep_of_marked r (writeStep r e) (writeStep_mark r e)

lemma elemMatches_writeStep (sel r : List Char) (e : Elem) :
    elemMatches sel (writeStep r e) = elemMatches sel e := by
  unfold elemMatches
  rw [writeStep_selTokens]

lemma elemMatches_touchIf (sel r : List Char) (e : Elem) :
    elemMatches sel (touchIf sel r e) = elemMatches sel e := by
  unfold touchIf; split
  · rw [elemMatches_writeStep]
  · rfl

lemma touchIf_touchIf (sel r : List Char) (e : Elem) :
    touchIf sel r (touchIf sel r e) = touchIf sel r e := by
  unfold touchIf
  by_cases hm : elemMatches sel e
  · rw [if_pos hm, if_pos (by rw [elemMatches_writeStep]; exact hm),
      writeStep_of_marked _ _ (writeStep_mark _ _)]
  · rw [if_neg hm, if_neg hm]

lemma touchIf_of_marked (sel r : List Char) (e : Elem) (h : e.dataSetDetails = true) :
    touchIf sel r e = e := by
  unfold touchIf; split
  · exact writeStep_of_marked _ _ h
  · rfl

lemma any_map_touchIf (sel r : List Char) (l : List Elem) :
    (l.map (touchIf sel r)).any (elemMatches sel) = l.any (elemMatches sel) := by
  rw [List.any_map]
  congr 1
  funext e
  exact elemMatches_touchIf sel r e

lemma map_touchIf_idem (sel r : List Char) (l : List Elem) :
    (l.map (touchIf sel r)).map (touchIf sel r) = l.map (touchIf sel r) := by
  rw [List.map_map]
  congr 1
  funext e
  exact touchIf_touchIf sel r e

lemma map_touchIf_marked (sel r : List Char) (l : List Elem) (j : Nat) (e : Elem)
    (hj : l.get? j = some e) (hm : e.dataSetDetails = true) :
    (l.map (touchIf sel r)).get? j = some e := by
  rw [List.get?_map, hj]
  simp [touchIf_of_marked _ _ _ hm]

/-- Claim C3: processing through `action` of `src/es.js` is idempotent and the
ProcessingMark is never cleared: if one run produced `doc2`, running again
with the same inputs returns `doc2` unchanged (every matched target now
carries the mark, so the `forEach` body skips it), and any element that
already carried the mark before the first run is left entirely unchanged by
it. -/
theorem c3_idempotent_processing (env : Env) (doc doc2 : List Elem)
    (attr : Option (List Char)) (h : action_es env doc attr = .ok doc2) :
    action_es env doc2 attr = .ok doc2 ∧
    (∀ j e, doc.get? j = some e → e.dataSetDetails = true → doc2.get? j = some e) := by
  cases attr with
  | none => exact Except.noConfusion h
  | some a =>
    unfold action_es at h ⊢
    dsimp only at h ⊢
    cases hp : parse_es a with
    | error err =>
      rw [hp] at h
      dsimp only at h
      exact Except.noConfusion h
    | ok d =>
      rw [hp] at h
      dsimp only at h ⊢
      by_cases hany : doc.any (elemMatches (selectorOf d.target)) = true
      · rw [if_pos hany] at h
        cases hg : (getData_es env d.source d.pkg).1 with
        | error err =>
          rw [hg] at h
          dsimp only at h
          obtain rfl : doc = doc2 := by injection h
          rw [if_pos hany]
          dsimp only
          exact ⟨rfl, fun j e hj _ => hj⟩
        | ok data =>
          rw [hg] at h
          dsimp only at h
          cases hr : getReport data d.format env.year with
          | error err =>
            rw [hr] at h
            dsimp only at h
            obtain rfl : doc = doc2 := by injection h
            rw [if_pos hany]
            dsimp only
            rw [hr]
            dsimp only
            exact ⟨rfl, fun j e hj _ => hj⟩
          | ok report =>
            rw [hr] at h
            dsimp only at h
            obtain rfl : doc2 = doc.map (touchIf (selectorOf d.target) report) := by
              injection h with h2
              exact h2.symm
            constructor
            · rw [if_pos (by rw [any_map_touchIf]; exact hany)]
              dsimp only
              rw [hr]
              dsimp only
              rw [map_touchIf_idem]
            · exact fun j e hj hm => map_touchIf_marked _ _ _ _ _ hj hm
      · rw [if_neg hany] at h
        obtain rfl : doc = doc2 := by injection h
        rw [if_neg hany]
        exact ⟨rfl, fun j e hj _ => hj⟩

/-- Claim C3, witness: running `action` a second time over the already
processed scenario-A page leaves it exactly as it is. -/
theorem c3_idempotent_witness :
    action_es envNpm130
      [elSelf, { elDefaultTgt with innerHTML := ("1.3.0").toList, dataSetDetails := true }]
      (some ("left-pad").toList) =
    .ok [elSelf, { elDefaultTgt with innerHTML := ("1.3.0").toList, dataSetDetails := true }] :=
  (c3_idempotent_processing envNpm130 doc7
    [elSelf, { elDefaultTgt with innerHTML := ("1.3.0").toList, dataSetDetails := true }]
    (some ("left-pad").toList) (by decide)).1

lemma ciHeadMatch_percent_false {ks : List Char} {c : Char} {cs : List Char}
    (hc : c.toLower ≠ '%') : ciHeadMatch ('%' :: ks) (c :: cs) = false := by
  have h1 : Char.toLower '%' = '%' := by decide
  unfold ciHeadMatch
  rw [h1]
  simp only [Bool.and_eq_false_iff]
  left
  simpa using fun h => hc h.symm

lemma replaceCIGo_inert (ks v : List Char) :
    ∀ (fuel : Nat) (s : List Char), (∀ c ∈ s, c.toLower ≠ '%') →
      replaceCIGo ('%' :: ks) v fuel s = s := by
  intro fuel
  induction fuel with
  | zero => intro s _; cases s <;> rfl
  | succ n ih =>
    intro s h
    cases s with
    | nil => rfl
    | cons c cs =>
      have hc : c.toLower ≠ '%' := h c (List.mem_cons_self c cs)
      rw [replaceCIGo, if_neg (fun hx =>
        by rw [ciHeadMatch_percent_false hc] at hx; exact Bool.noConfusion hx.2),
        ih cs (fun x hx => h x (List.mem_cons_of_mem c hx))]

/-- A `%`-prefixed placeholder key never matches inside a string none of whose
characters lower-cases to `%`. -/
lemma replaceCI_inert (ks v s : List Char) (h : ∀ c ∈ s, c.toLower ≠ '%') :
    replaceCI ('%' :: ks) v s = s :=
  replaceCIGo_inert ks v s.length s h

lemma collapseWsGo_id (b : Bool) (s : List Char) (h : ∀ c ∈ s, jsWs c = false) :
    collapseWsGo b s = s := by
  induction s generalizing b with
  | nil => rfl
  | cons c cs ih =>
    rw [collapseWsGo, if_neg (by simp [h c (List.mem_cons_self c cs)]),
      ih false (fun x hx => h x (List.mem_cons_of_mem c hx))]

lemma rmWsBeforeComma_id (s : List Char) (h : ∀ c ∈ s, jsWs c = false) :
    rmWsBeforeComma s = s := by
  unfold rmWsBeforeComma
  induction s with
  | nil => rfl
  | cons c cs ih =>
    have hc : jsWs c = false := h c (List.mem_cons_self c cs)
    have ih' := ih (fun x hx => h x (List.mem_cons_of_mem c hx))
    rw [List.foldr_cons]
    by_cases hcc : c = ','
    · rw [if_pos hcc]
      dsimp only
      rw [ih', hcc]
    · rw [if_neg hcc, if_neg (by simp [hc])]
      dsimp only
      rw [ih']

lemma collapseCommasGo_id (b : Bool) (s : List Char) (h : ∀ c ∈ s, c ≠ ',') :
    collapseCommasGo b s = s := by
  induction s generalizing b with
  | nil => rfl
  | cons c cs ih =>
    rw [collapseCommasGo, if_neg (h c (List.mem_cons_self c cs)),
      ih false (fun x hx => h x (List.mem_cons_of_mem c hx))]

lemma dropWhile_jsWs_id (s : List Char) (h : ∀ c ∈ s, jsWs c = false) :
    s.dropWhile jsWs = s := by
  cases s with
  | nil => rfl
  | cons c cs => simp [List.dropWhile_cons, h c (List.mem_cons_self c cs)]

lemma trimChars_id (s : List Char) (h : ∀ c ∈ s, jsWs c = false) :
    trimChars s = s := by
  unfold trimChars ltrim rtrim
  rw [dropWhile_jsWs_id s h,
    dropWhile_jsWs_id s.reverse (fun c hc => h c (List.mem_reverse.mp hc)),
    List.reverse_reverse]

lemma dropWhile_comma_id (s : List Char) (h : ∀ c ∈ s, c ≠ ',') :
    s.dropWhile (fun c => c = ',') = s := by
  cases s with
  | nil => rfl
  | cons c cs => simp [List.dropWhile_cons, h c (List.mem_cons_self c cs)]

lemma stripEdgeCommas_id (s : List Char) (h : ∀ c ∈ s, c ≠ ',') :
    stripEdgeCommas s = s := by
  unfold stripEdgeCommas
  rw [dropWhile_comma_id s h,
    dropWhile_comma_id s.reverse (fun c hc => h c (List.mem_reverse.mp hc)),
    List.reverse_reverse]

lemma rmEmptyParensStep_fst (c : Char) (acc : List Char × Bool × List Char)
    (hc : c ≠ '(') : (rmEmptyParensStep c acc).1 = c :: acc.1 := by
  unfold rmEmptyParensStep
  by_cases h1 : c = ')'
  · rw [if_pos h1, h1]
  · rw [if_neg h1]
    by_cases h2 : jsWs c
    · rw [if_pos h2]
    · rw [if_neg h2, if_neg hc]

lemma rmEmptyParens_id (s : List Char) (h : ∀ c ∈ s, c ≠ '(') :
    rmEmptyParens s = s := by
  unfold rmEmptyParens
  induction s with
  | nil => rfl
  | cons c cs ih =>
    rw [List.foldr_cons, rmEmptyParensStep_fst c _ (h c (List.mem_cons_self c cs)),
      ih (fun x hx => h x (List.mem_cons_of_mem c hx))]

/-- A character that all six post-processing steps leave alone: not
whitespace, not a comma, not an opening parenthesis. -/
def ppInert (c : Char) : Prop := jsWs c = false ∧ c ≠ ',' ∧ c ≠ '('

instance (c : Char) : Decidable (ppInert c) := by
  unfold ppInert
  infer_instance

/-- The post-processing pipeline is the identity on strings of inert
characters. -/
lemma postprocess_id (s : List Char) (h : ∀ c ∈ s, ppInert c) :
    postprocess s = s := by
  have hw : ∀ c ∈ s, jsWs c = false := fun c hc => (h c hc).1
  have hcm : ∀ c ∈ s, c ≠ ',' := fun c hc => (h c hc).2.1
  have hp : ∀ c ∈ s, c ≠ '(' := fun c hc => (h c hc).2.2
  unfold postprocess collapseWs collapseCommas
  rw [collapseWsGo_id false s hw, rmWsBeforeComma_id s hw, collapseCommasGo_id false s hcm,
    trimChars_id s hw, stripEdgeCommas_id s hcm, rmEmptyParens_id s hp]

lemma replaceCI_pct (key v s : List Char) (hkey : key.head? = some '%')
    (hs : ∀ c ∈ s, c.toLower ≠ '%') : replaceCI key v s = s := by
  cases key with
  | nil => cases hkey
  | cons k ks =>
    have hk : k = '%' := by simpa using hkey
    subst hk
    exact replaceCIGo_inert ks v s.length s hs

/-- Claim C9, counterexample: a genuine numeric stars count of zero does NOT
substitute the digit `"0"` — `data.stars || ''` treats `0` as falsy, so
`"%stars"` renders as the empty string. -/
theorem c9_zero_count_counterexample :
    getReport (some zeroStarsData) (some ("%stars").toList) 2025 = .ok [] ∧
    ([] : List Char) ≠ ("0").toList := by
  decide

/-- Claim C9, amended: a zero count substitutes the empty string (zero is
treated as unset, like an absent string field such as `language`); a nonzero
count renders as its decimal digits; and the substitution is global and
case-insensitive (`"%StArS%stars"` renders the digits twice).  The digit
hypotheses record that decimal digits contain no `%` (even case-folded), no
whitespace, no comma and no parenthesis, so neither later placeholder passes
nor post-processing touch them. -/
theorem c9_zero_count_amended :
    (∀ (y : Nat) (d : PackageData), d.stars = some 0 →
      getReport (some d) (some ("%stars").toList) y = .ok []) ∧
    (∀ (y : Nat) (d : PackageData), d.language = none →
      getReport (some d) (some ("%language").toList) y = .ok []) ∧
    (∀ (y n : Nat) (d : PackageData), d.stars = some n → n ≠ 0 →
      (∀ c ∈ natChars n, c.toLower ≠ '%' ∧ ppInert c) →
      getReport (some d) (some ("%stars").toList) y = .ok (natChars n)) ∧
    (∀ (y n : Nat) (d : PackageData), d.stars = some n → n ≠ 0 →
      (∀ c ∈ natChars n, c.toLower ≠ '%' ∧ ppInert c) →
      getReport (some d) (some ("%StArS%stars").toList) y =
        .ok (natChars n ++ natChars n)) := by
  have enil : ∀ k v : List Char, replaceCI k v [] = [] := fun k v => rfl
  refine ⟨?_, ?_, ?_, ?_⟩
  · intro y d h
    unfold getReport getReportWith
    dsimp only
    rw [if_neg (by decide : ¬(("%stars").toList = ([] : List Char)))]
    simp only [reportVariables, List.foldl_cons, List.foldl_nil]
    have e1 : ∀ v, replaceCI (("%year").toList) v (("%stars").toList) =
      ("%stars").toList := fun _ => rfl
    have e2 : ∀ v, replaceCI (("%copy").toList) v (("%stars").toList) =
      ("%stars").toList := fun _ => rfl
    have e3 : ∀ v, replaceCI (("%name").toList) v (("%stars").toList) =
      ("%stars").toList := fun _ => rfl
    have e4 : ∀ v, replaceCI (("%version").toList) v (("%stars").toList) =
      ("%stars").toList := fun _ => rfl
    have e5 : ∀ v, replaceCI (("%description").toList) v (("%stars").toList) =
      ("%stars").toList := fun _ => rfl
    have e6 : ∀ v, replaceCI (("%homepage").toList) v (("%stars").toList) =
      ("%stars").toList := fun _ => rfl
    have e7 : ∀ v, replaceCI (("%author").toList) v (("%stars").toList) =
      ("%stars").toList := fun _ => rfl
    have e8 : ∀ v, replaceCI (("%license").toList) v (("%stars").toList) =
      ("%stars").toList := fun _ => rfl
    have e9 : ∀ v, replaceCI (("%last-update").toList) v (("%stars").toList) =
      ("%stars").toList := fun _ => rfl
    rw [e1, e2, e3, e4, e5, e6, e7, e8, e9, h]
    have e0 : numOrEmpty (some 0) = [] := rfl
    have es : ∀ v, replaceCI (("%stars").toList) v (("%stars").toList) = v ++ [] :=
      fun _ => rfl
    rw [e0, es]
    simp only [List.nil_append, enil]
    rfl
  · intro y d h
    unfold getReport getReportWith
    dsimp only
    rw [if_neg (by decide : ¬(("%language").toList = ([] : List Char)))]
    simp only [reportVariables, List.foldl_cons, List.foldl_nil]
    have e1 : ∀ v, replaceCI (("%year").toList) v (("%language").toList) =
      ("%language").toList := fun _ => rfl
    have e2 : ∀ v, replaceCI (("%copy").toList) v (("%language").toList) =
      ("%language").toList := fun _ => rfl
    have e3 : ∀ v, replaceCI (("%name").toList) v (("%language").toList) =
      ("%language").toList := fun _ => rfl
    have e4 : ∀ v, replaceCI (("%version").toList) v (("%language").toList) =
      ("%language").toList := fun _ => rfl
    have e5 : ∀ v, replaceCI (("%description").toList) v (("%language").toList) =
      ("%language").toList := fun _ => rfl
    have e6 : ∀ v, replaceCI (("%homepage").toList) v (("%language").toList) =
      ("%language").toList := fun _ => rfl
    have e7 : ∀ v, replaceCI (("%author").toList) v (("%language").toList) =
      ("%language").toList := fun _ => rfl
    have e8 : ∀ v, replaceCI (("%license").toList) v (("%language").toList) =
      ("%language").toList := fun _ => rfl
    have e9 : ∀ v, replaceCI (("%last-update").toList) v (("%language").toList) =
      ("%language").toList := fun _ => rfl
    have e10 : ∀ v, replaceCI (("%stars").toList) v (("%language").toList) =
      ("%language").toList := fun _ => rfl
    have e11 : ∀ v, replaceCI (("%forks").toList) v (("%language").toList) =
      ("%language").toList := fun _ => rfl
    rw [e1, e2, e3, e4, e5, e6, e7, e8, e9, e10, e11, h]
    have elang : ∀ v, replaceCI (("%language").toList) v (("%language").toList) =
      v ++ [] := fun _ => rfl
    have ej : jsOrS none ([] : List Char) = [] := rfl
    rw [ej, elang]
    simp only [List.nil_append, enil]
    rfl
  · intro y n d hst hn hin
    have hpc : ∀ c ∈ natChars n, c.toLower ≠ '%' := fun c hc => (hin c hc).1
    unfold getReport getReportWith
    dsimp only
    rw [if_neg (by decide : ¬(("%stars").toList = ([] : List Char)))]
    simp only [reportVariables, List.foldl_cons, List.foldl_nil]
    have e1 : ∀ v, replaceCI (("%year").toList) v (("%stars").toList) =
      ("%stars").toList := fun _ => rfl
    have e2 : ∀ v, replaceCI (("%copy").toList) v (("%stars").toList) =
      ("%stars").toList := fun _ => rfl
    have e3 : ∀ v, replaceCI (("%name").toList) v (("%stars").toList) =
      ("%stars").toList := fun _ => rfl
    have e4 : ∀ v, replaceCI (("%version").toList) v (("%stars").toList) =
      ("%stars").toList := fun _ => rfl
    have e5 : ∀ v, replaceCI (("%description").toList) v (("%stars").toList) =
      ("%stars").toList := fun _ => rfl
    have e6 : ∀ v, replaceCI (("%homepage").toList) v (("%stars").toList) =
      ("%stars").toList := fun _ => rfl
    have e7 : ∀ v, replaceCI (("%author").toList) v (("%stars").toList) =
      ("%stars").toList := fun _ => rfl
    have e8 : ∀ v, replaceCI (("%license").toList) v (("%stars").toList) =
      ("%stars").toList := fun _ => rfl
    have e9 : ∀ v, replaceCI (("%last-update").toList) v (("%stars").toList) =
      ("%stars").toList := fun _ => rfl
    rw [e1, e2, e3, e4, e5, e6, e7, e8, e9, hst]
    have en : numOrEmpty (some n) = natChars n := by simp [numOrEmpty, hn]
    have es : ∀ v, replaceCI (("%stars").toList) v (("%stars").toList) = v ++ [] :=
      fun _ => rfl
    rw [en, es, List.append_nil,
      replaceCI_pct (("%forks").toList) (numOrEmpty d.forks) (natChars n) rfl hpc,
      replaceCI_pct (("%language").toList) (jsOrS d.language []) (natChars n) rfl hpc,
      replaceCI_pct (("%repository").toList) (jsOrS d.repository []) (natChars n) rfl hpc,
      replaceCI_pct (("%maintainers").toList) (jsOrS d.maintainers []) (natChars n) rfl hpc,
      replaceCI_pct (("%downloads").toList)
        (numOrEmpty (d.downloads.map Downloads.lastMonth)) (natChars n) rfl hpc,
      replaceCI_pct (("%release-date").toList) (jsOrS d.releaseDate []) (natChars n) rfl hpc,
      replaceCI_pct (("%release-notes").toList) (jsOrS d.releaseNotes []) (natChars n) rfl hpc,
      replaceCI_pct (("%owner").toList) (jsOrS d.owner []) (natChars n) rfl hpc,
      replaceCI_pct (("%requires").toList) (jsOrS d.requiresPython []) (natChars n) rfl hpc,
      postprocess_id (natChars n) (fun c hc => (hin c hc).2)]
  · intro y n d hst hn hin
    have hpc : ∀ c ∈ natChars n, c.toLower ≠ '%' := fun c hc => (hin c hc).1
    have hpc2 : ∀ c ∈ natChars n ++ natChars n, c.toLower ≠ '%' := by
      intro c hc
      rcases List.mem_append.mp hc with h' | h' <;> exact hpc c h'
    unfold getReport getReportWith
    dsimp only
    rw [if_neg (by decide : ¬(("%StArS%stars").toList = ([] : List Char)))]
    simp only [reportVariables, List.foldl_cons, List.foldl_nil]
    have e1 : ∀ v, replaceCI (("%year").toList) v (("%StArS%stars").toList) =
      ("%StArS%stars").toList := fun _ => rfl
    have e2 : ∀ v, replaceCI (("%copy").toList) v (("%StArS%stars").toList) =
      ("%StArS%stars").toList := fun _ => rfl
    have e3 : ∀ v, replaceCI (("%name").toList) v (("%StArS%stars").toList) =
      ("%StArS%stars").toList := fun _ => rfl
    have e4 : ∀ v, replaceCI (("%version").toList) v (("%StArS%stars").toList) =
      ("%StArS%stars").toList := fun _ => rfl
    have e5 : ∀ v, replaceCI (("%description").toList) v (("%StArS%stars").toList) =
      ("%StArS%stars").toList := fun _ => rfl
    have e6 : ∀ v, replaceCI (("%homepage").toList) v (("%StArS%stars").toList) =
      ("%StArS%stars").toList := fun _ => rfl
    have e7 : ∀ v, replaceCI (("%author").toList) v (("%StArS%stars").toList) =
      ("%StArS%stars").toList := fun _ => rfl
    have e8 : ∀ v, replaceCI (("%license").toList) v (("%StArS%stars").toList) =
      ("%StArS%stars").toList := fun _ => rfl
    have e9 : ∀ v, replaceCI (("%last-update").toList) v (("%StArS%stars").toList) =
      ("%StArS%stars").toList := fun _ => rfl
    rw [e1, e2, e3, e4, e5, e6, e7, e8, e9, hst]
    have en : numOrEmpty (some n) = natChars n := by simp [numOrEmpty, hn]
    have es : ∀ v, replaceCI (("%stars").toList) v (("%StArS%stars").toList) =
      v ++ (v ++ []) := fun _ => rfl
    rw [en, es, List.append_nil,
      replaceCI_pct (("%forks").toList) (numOrEmpty d.forks)
        (natChars n ++ natChars n) rfl hpc2,
      replaceCI_pct (("%language").toList) (jsOrS d.language [])
        (natChars n ++ natChars n) rfl hpc2,
      replaceCI_pct (("%repository").toList) (jsOrS d.repository [])
        (natChars n ++ natChars n) rfl hpc2,
      replaceCI_pct (("%maintainers").toList) (jsOrS d.maintainers [])
        (natChars n ++ natChars n) rfl hpc2,
      replaceCI_pct (("%downloads").toList)
        (numOrEmpty (d.downloads.map Downloads.lastMonth))
        (natChars n ++ natChars n) rfl hpc2,
      replaceCI_pct (("%release-date").toList) (jsOrS d.releaseDate [])
        (natChars n ++ natChars n) rfl hpc2,
      replaceCI_pct (("%release-notes").toList) (jsOrS d.releaseNotes [])
        (natChars n ++ natChars n) rfl hpc2,
      replaceCI_pct (("%owner").toList) (jsOrS d.owner [])
        (natChars n ++ natChars n) rfl hpc2,
      replaceCI_pct (("%requires").toList) (jsOrS d.requiresPython [])
        (natChars n ++ natChars n) rfl hpc2,
      postprocess_id (natChars n ++ natChars n) (fun c hc => ?_)]
    rcases List.mem_append.mp hc with h' | h' <;> exact (hin c h').2

/-- Claim C9, amended, witness: 42 stars render as `"42"` case-insensitively
and globally, and 0 stars render as the empty string. -/
theorem c9_zero_count_witness :
    getReport (some someStarsData) (some ("%StArS%stars").toList) 2025 =
      .ok (natChars 42 ++ natChars 42) :=
  c9_zero_count_amended.2.2.2 2025 42 someStarsData rfl (by decide) (by decide)

lemma len_dropWhile_le (p : Char → Bool) (l : List Char) :
    (l.dropWhile p).length ≤ l.length := by
  induction l with
  | nil => simp
  | cons x xs ih =>
    rw [List.dropWhile_cons]
    split
    · exact Nat.le_succ_of_le ih
    · simp

lemma dropWhile_len_eq (p : Char → Bool) (l : List Char)
    (h : (l.dropWhile p).length = l.length) : l.dropWhile p = l := by
  induction l with
  | nil => rfl
  | cons x xs ih =>
    rw [List.dropWhile_cons] at h ⊢
    split at h
    · have h2 := len_dropWhile_le p xs
      rw [List.length_cons] at h
      omega
    · split
      · simp_all
      · rfl

/-- A trim-fixed string is fixed by both one-sided trims. -/
lemma trim_fixed_parts (s : List Char) (h : trimChars s = s) :
    ltrim s = s ∧ rtrim s = s := by
  have h1 : (s.dropWhile jsWs).length ≤ s.length := len_dropWhile_le jsWs s
  have h2 : (trimChars s).length ≤ (s.dropWhile jsWs).length := by
    unfold trimChars rtrim ltrim
    calc (((s.dropWhile jsWs).reverse.dropWhile jsWs).reverse).length
        = ((s.dropWhile jsWs).reverse.dropWhile jsWs).length := by rw [List.length_reverse]
      _ ≤ ((s.dropWhile jsWs).reverse).length := len_dropWhile_le jsWs _
      _ = (s.dropWhile jsWs).length := by rw [List.length_reverse]
  have h3 : (trimChars s).length = s.length := by rw [h]
  have h4 : ltrim s = s := by
    unfold ltrim
    exact dropWhile_len_eq jsWs s (Nat.le_antisymm h1 (by omega))
  refine ⟨h4, ?_⟩
  have h5 : rtrim s = trimChars s := by
    unfold trimChars
    rw [h4]
  exact h5.trans h

lemma ltrim_append_fixed (u v : List Char) (hu : ltrim u = u) (hne : u ≠ []) :
    ltrim (u ++ v) = u ++ v := by
  cases u with
  | nil => exact absurd rfl hne
  | cons x xs =>
    have hx : jsWs x = false := by
      by_contra hx'
      have hx2 : jsWs x = true := by simpa using hx'
      unfold ltrim at hu
      rw [List.dropWhile_cons, if_pos hx2] at hu
      have h1 := len_dropWhile_le jsWs xs
      have h2 := congrArg List.length hu
      simp at h2
      omega
    unfold ltrim
    rw [List.cons_append, List.dropWhile_cons, if_neg (by simp [hx])]

lemma dropWhile_jsWs_append_comma (u X : List Char) :
    (u ++ ',' :: X).dropWhile jsWs = u.dropWhile jsWs ++ ',' :: X := by
  induction u with
  | nil =>
    simp only [List.nil_append, List.dropWhile_cons, List.dropWhile_nil]
    rw [if_neg (by decide)]
  | cons x xs ih =>
    by_cases hx : jsWs x = true
    · simp only [List.cons_append, List.dropWhile_cons, if_pos hx, ih]
    · simp only [List.cons_append, List.dropWhile_cons, if_neg hx]

/-- Trailing trim passes through everything left of the last comma. -/
lemma rtrim_append_comma (u g : List Char) :
    rtrim (u ++ ',' :: g) = u ++ ',' :: rtrim g := by
  unfold rtrim
  rw [List.reverse_append, List.reverse_cons, List.append_assoc, List.singleton_append,
    dropWhile_jsWs_append_comma, List.reverse_append, List.reverse_cons,
    List.reverse_reverse, List.append_assoc, List.singleton_append]

lemma jsSplit_append (sep : Char) (a r : List Char) (h : sep ∉ a) :
    jsSplit sep (a ++ sep :: r) = a :: jsSplit sep r := by
  induction a with
  | nil =>
    rw [List.nil_append, jsSplit, if_pos rfl]
  | cons x xs ih =>
    have hx : x ≠ sep := fun hxx => h (hxx ▸ List.mem_cons_self x xs)
    have ih' := ih (fun hm => h (List.mem_cons_of_mem x hm))
    rw [List.cons_append, jsSplit, if_neg hx, ih']

lemma jsSplit_single (sep : Char) (a : List Char) (h : sep ∉ a) :
    jsSplit sep a = [a] := by
  induction a with
  | nil => rfl
  | cons x xs ih =>
    have hx : x ≠ sep := fun hxx => h (hxx ▸ List.mem_cons_self x xs)
    have ih' := ih (fun hm => h (List.mem_cons_of_mem x hm))
    rw [jsSplit, if_neg hx, ih']

lemma bc_none (s : List Char) (h : '{' ∉ s) : braceCapture s = none := by
  have hnil : s.dropWhile (fun c => c ≠ '{') = [] := by
    rw [List.dropWhile_eq_nil_iff]
    intro x hx
    simp only [ne_eq, decide_not, Bool.not_eq_eq_eq_not, Bool.not_true, decide_eq_false_iff_not]
    exact fun hxx => h (hxx ▸ hx)
  unfold braceCapture
  rw [hnil]

lemma takeWhile_until_brace (u t : List Char) (h : '{' ∉ u) :
    (u ++ '{' :: t).takeWhile (fun c => c ≠ '{') = u := by
  induction u with
  | nil =>
    rw [List.nil_append, List.takeWhile_cons, if_neg (by simp)]
  | cons x xs ih =>
    have hx : x ≠ '{' := fun hxx => h (hxx ▸ List.mem_cons_self x xs)
    rw [List.cons_append, List.takeWhile_cons, if_pos (by simp [hx]),
      ih (fun hm => h (List.mem_cons_of_mem x hm))]

lemma dropWhile_until_brace (u t : List Char) (h : '{' ∉ u) :
    (u ++ '{' :: t).dropWhile (fun c => c ≠ '{') = '{' :: t := by
  induction u with
  | nil =>
    rw [List.nil_append, List.dropWhile_cons, if_neg (by simp)]
  | cons x xs ih =>
    have hx : x ≠ '{' := fun hxx => h (hxx ▸ List.mem_cons_self x xs)
    rw [List.cons_append, List.dropWhile_cons, if_pos (by simp [hx]),
      ih (fun hm => h (List.mem_cons_of_mem x hm))]

lemma takeWhile_until_rbrace (f t : List Char) (h : '}' ∉ f) :
    (f ++ '}' :: t).takeWhile (fun c => c ≠ '}') = f := by
  induction f with
  | nil =>
    rw [List.nil_append, List.takeWhile_cons, if_neg (by simp)]
  | cons x xs ih =>
    have hx : x ≠ '}' := fun hxx => h (hxx ▸ List.mem_cons_self x xs)
    rw [List.cons_append, List.takeWhile_cons, if_pos (by simp [hx]),
      ih (fun hm => h (List.mem_cons_of_mem x hm))]

/-- Shape of the brace regex on a well-formed bracketed string. -/
lemma braceCapture_shape (u f t : List Char) (hu : '{' ∉ u) (hf : '}' ∉ f) :
    braceCapture (u ++ '{' :: (f ++ '}' :: t)) = some f := by
  unfold braceCapture
  rw [dropWhile_until_brace u (f ++ '}' :: t) hu]
  dsimp only
  have hany : (f ++ '}' :: t).any (fun c => c = '}') = true := by
    rw [List.any_eq_true]
    exact ⟨'}', List.mem_append_right f (List.mem_cons_self '}' t), by simp⟩
  rw [if_pos hany, takeWhile_until_rbrace f t hf]

lemma beforeBrace_shape (u t : List Char) (hu : '{' ∉ u) :
    beforeBrace (u ++ '{' :: t) = u := by
  unfold beforeBrace
  exact takeWhile_until_brace u t hu

/-- A three-field comma chain with trim-fixed first and last fields is
trim-fixed as a whole. -/
lemma trimChars_chain3 (a b c : List Char) (ha : trimChars a = a)
    (hc : trimChars c = c) (hne : a ≠ []) :
    trimChars (a ++ ',' :: (b ++ ',' :: c)) = a ++ ',' :: (b ++ ',' :: c) := by
  obtain ⟨hal, _⟩ := trim_fixed_parts a ha
  obtain ⟨_, hcr⟩ := trim_fixed_parts c hc
  unfold trimChars
  rw [show ltrim (a ++ ',' :: (b ++ ',' :: c)) = a ++ ',' :: (b ++ ',' :: c) from
    ltrim_append_fixed a _ hal hne]
  have hsh : a ++ ',' :: (b ++ ',' :: c) = (a ++ ',' :: b) ++ ',' :: c := by
    simp [List.append_assoc]
  rw [hsh, rtrim_append_comma, hcr]

/-- A four-field comma chain with trim-fixed first field trims to the same
chain with only its last field right-trimmed. -/
lemma trimChars_chain4 (a b c g : List Char) (ha : trimChars a = a) (hne : a ≠ []) :
    trimChars (a ++ ',' :: (b ++ ',' :: (c ++ ',' :: g))) =
      a ++ ',' :: (b ++ ',' :: (c ++ ',' :: rtrim g)) := by
  obtain ⟨hal, _⟩ := trim_fixed_parts a ha
  unfold trimChars
  rw [show ltrim (a ++ ',' :: (b ++ ',' :: (c ++ ',' :: g))) =
      a ++ ',' :: (b ++ ',' :: (c ++ ',' :: g)) from
    ltrim_append_fixed a _ hal hne]
  have hsh : a ++ ',' :: (b ++ ',' :: (c ++ ',' :: g)) =
      (a ++ ',' :: (b ++ ',' :: c)) ++ ',' :: g := by
    simp [List.append_assoc]
  rw [hsh, rtrim_append_comma]
  simp [List.append_assoc]

/-- Claim C4, counterexample: in the `src/unnamed/part_000` variant the two
surface syntaxes do NOT yield the same descriptor — the fourth comma field is
parsed but discarded (`format: undefined`), while the brace segment supplies
the format. -/
theorem c4_format_counterexample :
    parse_iife (some ("a,b,npm,fmt").toList) =
      .ok (some ⟨("a").toList, some ("b").toList, ("npm").toList, none⟩) ∧
    parse_iife (some ("a,b,npm{fmt}").toList) =
      .ok (some ⟨("a").toList, some ("b").toList, ("npm").toList, some ("fmt").toList⟩) ∧
    (none : Option (List Char)) ≠ some ("fmt").toList := by
  decide

/-- Claim C4, amended: in `src/es.js` the equivalence does hold — for every
well-formed attribute built from a package `a` (trim-fixed, non-empty),
target `b`, source `c` (trim-fixed) and format `f`, with no commas inside
the fields, no braces anywhere, supplying the format as a fourth comma field
or as a brace segment yields the same descriptor; and when both a fourth
comma field `g` and a brace segment are present, the brace segment wins.  In
the part_000 variant the comma form is discarded (see the counterexample). -/
theorem c4_format_equiv_amended (a b c f g : List Char)
    (ha : trimChars a = a) (hc : trimChars c = c) (hpkg : a ≠ [])
    (hca : ',' ∉ a) (hcb : ',' ∉ b) (hcc : ',' ∉ c) (hcf : ',' ∉ f)
    (hla : '{' ∉ a) (hlb : '{' ∉ b) (hlc : '{' ∉ c) (hlf : '{' ∉ f) (hlg : '{' ∉ g)
    (hrf : '}' ∉ f) :
    parse_es (a ++ ',' :: (b ++ ',' :: (c ++ ',' :: f))) =
      parse_es (a ++ ',' :: (b ++ ',' :: (c ++ '{' :: (f ++ ['}'])))) ∧
    parse_es (a ++ ',' :: (b ++ ',' :: (c ++ ',' :: (g ++ '{' :: (f ++ ['}']))))) =
      parse_es (a ++ ',' :: (b ++ ',' :: (c ++ '{' :: (f ++ ['}'])))) := by
  have hbcn : braceCapture (a ++ ',' :: (b ++ ',' :: (c ++ ',' :: f))) = none := by
    apply bc_none
    simp only [List.mem_append, List.mem_cons]
    push_neg
    exact ⟨hla, by decide, hlb, by decide, hlc, by decide, hlf⟩
  have huB : '{' ∉ a ++ ',' :: (b ++ ',' :: c) := by
    simp only [List.mem_append, List.mem_cons]
    push_neg
    exact ⟨hla, by decide, hlb, by decide, hlc⟩
  have huC : '{' ∉ a ++ ',' :: (b ++ ',' :: (c ++ ',' :: g)) := by
    simp only [List.mem_append, List.mem_cons]
    push_neg
    exact ⟨hla, by decide, hlb, by decide, hlc, by decide, hlg⟩
  have Hcomma : parse_es (a ++ ',' :: (b ++ ',' :: (c ++ ',' :: f))) =
      .ok ⟨a, some (trimChars b), jsOrS (some (trimChars c)) ("npm").toList,
        some (trimChars f)⟩ := by
    unfold parse_es
    rw [hbcn]
    dsimp only
    rw [jsSplit_append ',' a _ hca, jsSplit_append ',' b _ hcb, jsSplit_append ',' c _ hcc,
      jsSplit_single ',' f hcf]
    dsimp only [List.map, List.get?, Option.getD]
    rw [ha, if_neg hpkg]
  have hshB : a ++ ',' :: (b ++ ',' :: (c ++ '{' :: (f ++ ['}']))) =
      (a ++ ',' :: (b ++ ',' :: c)) ++ '{' :: (f ++ '}' :: []) := by
    simp [List.append_assoc]
  have Hbrace : parse_es (a ++ ',' :: (b ++ ',' :: (c ++ '{' :: (f ++ ['}'])))) =
      .ok ⟨a, some (trimChars b), jsOrS (some (trimChars c)) ("npm").toList,
        some (trimChars f)⟩ := by
    rw [hshB]
    unfold parse_es
    rw [braceCapture_shape _ _ _ huB hrf]
    dsimp only
    rw [beforeBrace_shape _ _ huB, trimChars_chain3 a b c ha hc hpkg,
      jsSplit_append ',' a _ hca, jsSplit_append ',' b _ hcb, jsSplit_single ',' c hcc]
    dsimp only [List.map, List.get?, Option.getD]
    rw [ha, if_neg hpkg]
  have hshC : a ++ ',' :: (b ++ ',' :: (c ++ ',' :: (g ++ '{' :: (f ++ ['}'])))) =
      (a ++ ',' :: (b ++ ',' :: (c ++ ',' :: g))) ++ '{' :: (f ++ '}' :: []) := by
    simp [List.append_assoc]
  have Hboth : parse_es (a ++ ',' :: (b ++ ',' :: (c ++ ',' :: (g ++ '{' :: (f ++ ['}']))))) =
      .ok ⟨a, some (trimChars b), jsOrS (some (trimChars c)) ("npm").toList,
        some (trimChars f)⟩ := by
    rw [hshC]
    unfold parse_es
    rw [braceCapture_shape _ _ _ huC hrf]
    dsimp only
    rw [beforeBrace_shape _ _ huC, trimChars_chain4 a b c g ha hpkg,
      jsSplit_append ',' a _ hca, jsSplit_append ',' b _ hcb, jsSplit_append ',' c _ hcc]
    dsimp only [List.map, List.get?, Option.getD]
    rw [ha, if_neg hpkg]
  exact ⟨Hcomma.trans Hbrace.symm, Hboth.trans Hbrace.symm⟩

/-- Claim C4, amended, witness at concrete fields. -/
theorem c4_format_equiv_witness :
    parse_es (("pkg").toList ++ ',' ::
        (("tgt").toList ++ ',' :: (("npm").toList ++ ',' :: ("fmt").toList))) =
      parse_es (("pkg").toList ++ ',' ::
        (("tgt").toList ++ ',' :: (("npm").toList ++ '{' :: (("fmt").toList ++ ['}'])))) :=
  (c4_format_equiv_amended ("pkg").toList ("tgt").toList ("npm").toList ("fmt").toList
    ("old").toList (by decide) (by decide) (by decide) (by decide) (by decide) (by decide)
    (by decide) (by decide) (by decide) (by decide) (by decide) (by decide)
    (by decide)).1
